import Mathlib

/-
Verification of the durable webhook delivery queue of the
lightweight-optimised-we.js gateway.

The Delivery Record Store is the `db` object of src/config/database.lite.js
(the full bundle starting at line 619); its webhook-queue operations live at
lines 1375-1561.  The store keeps one row per DeliveryRecord in the
`webhook_delivery_queue` table (schema.sql lines 58-73); a BEFORE UPDATE
trigger (schema.sql lines 219-222) sets `updated_at = NOW()` on every update,
so every modelled update writes `updated_at := now`.

Timestamps are modelled as integers (milliseconds); the table is modelled as a
list of records; each Supabase query is modelled by the filter / map / sort /
take combination it performs.
-/

namespace WebhookQueue

/-- The closed status enum of `webhook_delivery_queue.status`
(part_006 line 326): pending, processing, success, failed, dead_letter. -/
inductive Status
  | pending
  | processing
  | success
  | failed
  | dead_letter
deriving DecidableEq, Repr

/-- One row of `webhook_delivery_queue` (schema.sql lines 58-73). -/
structure DeliveryRecord where
  id : Nat
  account_id : Nat
  webhook_id : Nat
  webhook_url : String
  webhook_secret : Option String
  payload : String
  status : Status
  attempt_count : Nat
  max_retries : Nat
  last_error : Option String
  response_status : Option Nat
  next_attempt_at : Int
  created_at : Int
  updated_at : Int
deriving DecidableEq, Repr

/-- The queue table: one row per DeliveryRecord. -/
abbrev Store := List DeliveryRecord

/-- The status filter shared by getDueWebhookDeliveries (line 1413) and
markWebhookDeliveryProcessing (line 1442):
the Supabase clause with status among pending and failed. -/
def Status.claimable : Status → Bool
  | .pending => true
  | .failed => true
  | _ => false

/-- A webhook configuration row, as consumed by the delivery code:
`getActiveWebhooks` rows carry id, url, secret, is_active (spec section 6),
plus the custom `headers` column of schema.sql line 50. -/
structure Webhook where
  id : Nat
  url : String
  secret : Option String
  is_active : Bool
  headers : List (String × String)
deriving DecidableEq, Repr

/-! ## Store operations, happy path (backing table present)

Each definition embeds the corresponding method of the `db` object of
src/config/database.lite.js. -/

/-- enqueueWebhookDelivery (lines 1375-1405): inserts a fresh row with
status pending, next_attempt_at now; attempt_count, created_at and updated_at
come from the column defaults (0, NOW(), NOW()); the row id is generated. -/
def enqueueWebhookDelivery (now : Int) (freshId : Nat) (accountId : Nat)
    (w : Webhook) (payload : String) (maxRetries : Nat) (s : Store) :
    Store × DeliveryRecord :=
  let record : DeliveryRecord :=
    { id := freshId
      account_id := accountId
      webhook_id := w.id
      webhook_url := w.url
      webhook_secret := w.secret
      payload := payload
      status := .pending
      attempt_count := 0
      max_retries := maxRetries
      last_error := none
      response_status := none
      next_attempt_at := now
      created_at := now
      updated_at := now }
  (s ++ [record], record)

/-- The row filter of getDueWebhookDeliveries (lines 1413-1414):
status among pending and failed, and next_attempt_at at most now. -/
def dueFilter (now : Int) (r : DeliveryRecord) : Bool :=
  r.status.claimable && decide (r.next_attempt_at ≤ now)

/-- The ordering used by getDueWebhookDeliveries (line 1415):
ascending next_attempt_at. -/
def dueLE (a b : DeliveryRecord) : Prop :=
  a.next_attempt_at ≤ b.next_attempt_at

instance : DecidableRel dueLE := fun a b => Int.decLe a.next_attempt_at b.next_attempt_at

instance : IsTotal DeliveryRecord dueLE :=
  ⟨fun a b => Int.le_total a.next_attempt_at b.next_attempt_at⟩

instance : IsTrans DeliveryRecord dueLE :=
  ⟨fun _ _ _ hab hbc => le_trans hab hbc⟩

/-- getDueWebhookDeliveries (lines 1407-1429): select rows with status among
pending and failed whose next_attempt_at is at most now, ordered by
next_attempt_at ascending, capped at `limit`. -/
def getDueWebhookDeliveries (now : Int) (limit : Nat) (s : Store) :
    List DeliveryRecord :=
  (List.insertionSort dueLE (s.filter (dueFilter now))).take limit

/-- The row condition of markWebhookDeliveryProcessing (lines 1441-1442):
matching id AND status still among pending and failed - the compare-and-swap
guard. -/
def markMatches (job r : DeliveryRecord) : Bool :=
  r.id == job.id && r.status.claimable

/-- The column writes of markWebhookDeliveryProcessing (lines 1435-1440):
status processing, attempt_count taken from the caller snapshot plus one,
last_error cleared, updated_at now. -/
def markUpdate (now : Int) (job r : DeliveryRecord) : DeliveryRecord :=
  { r with
      status := .processing
      attempt_count := job.attempt_count + 1
      last_error := none
      updated_at := now }

/-- markWebhookDeliveryProcessing (lines 1431-1456): the conditional UPDATE
with `.select()`; returns the first updated row, or none when the guard
matched no row (a lost race). -/
def markWebhookDeliveryProcessing (now : Int) (job : DeliveryRecord)
    (s : Store) : Store × Option DeliveryRecord :=
  (s.map fun r => if markMatches job r then markUpdate now job r else r,
   ((s.filter (markMatches job)).map (markUpdate now job)).head?)

/-- completeWebhookDelivery (lines 1458-1481): rows with the given id get
status success, the response status recorded, last_error cleared. -/
def completeWebhookDelivery (now : Int) (jobId : Nat) (responseStatus : Nat)
    (s : Store) : Store :=
  s.map fun r =>
    if r.id == jobId then
      { r with
          status := .success
          response_status := some responseStatus
          last_error := none
          updated_at := now }
    else r

/-- failWebhookDelivery (lines 1483-1506): rows with the given id get status
dead_letter when the flag is set, failed otherwise, plus last_error and
next_attempt_at.  No status guard and no attempt_count write. -/
def failWebhookDelivery (now : Int) (jobId : Nat) (errorMessage : String)
    (nextAttemptAt : Int) (isDeadLetter : Bool) (s : Store) : Store :=
  s.map fun r =>
    if r.id == jobId then
      { r with
          status := if isDeadLetter then .dead_letter else .failed
          last_error := some errorMessage
          next_attempt_at := nextAttemptAt
          updated_at := now }
    else r

/-- The cutoff of resetStuckWebhookDeliveries (line 1510):
now minus minutes times 60000 ms. -/
def stuckCutoff (now : Int) (minutes : Nat) : Int :=
  now - (minutes : Int) * 60000

/-- The row condition of resetStuckWebhookDeliveries (lines 1518-1519):
status processing and updated_at at most the cutoff. -/
def stuckMatches (now : Int) (minutes : Nat) (r : DeliveryRecord) : Bool :=
  r.status == .processing && decide (r.updated_at ≤ stuckCutoff now minutes)

/-- resetStuckWebhookDeliveries (lines 1508-1531): processing rows whose
updated_at is older than the cutoff get status failed, next_attempt_at now,
and a recovery message in last_error. -/
def resetStuckWebhookDeliveries (now : Int) (minutes : Nat) (s : Store) :
    Store :=
  s.map fun r =>
    if stuckMatches now minutes r then
      { r with
          status := .failed
          next_attempt_at := now
          last_error := some "Recovered from unexpected shutdown"
          updated_at := now }
    else r

/-! ## Store operations, error path (missing backing table)

src/config/database.lite.js distinguishes the missing-table condition with
the class MissingWebhookQueueTableError (lines 608-613) recognised by
isWebhookQueueMissingError (lines 615-617): Supabase error code PGRST205
whose message mentions webhook_delivery_queue.  The definitions below embed
the try / catch structure of each operation: what the inner code throws and
what the outer catch does with it. -/

/-- A Supabase error as inspected by isWebhookQueueMissingError:
only its code and whether its message mentions the queue table matter. -/
structure DBError where
  codePGRST205 : Bool
  mentionsQueueTable : Bool
deriving DecidableEq, Repr

/-- isWebhookQueueMissingError (lines 615-617): code PGRST205 and a message
matching webhook_delivery_queue. -/
def isWebhookQueueMissingError (e : DBError) : Bool :=
  e.codePGRST205 && e.mentionsQueueTable

/-- What a store operation can throw: the distinguished
MissingWebhookQueueTableError, or the raw Supabase error rethrown. -/
inductive StoreError
  | missingQueueTable
  | plain (e : DBError)
deriving DecidableEq, Repr

/-- The shared inner pattern of every operation (e.g. lines 1393-1398):
on a Supabase error, throw MissingWebhookQueueTableError when
isWebhookQueueMissingError matches, otherwise rethrow the error. -/
def raiseDistinguished (dbErr : Option DBError) : Except StoreError Unit :=
  match dbErr with
  | some e =>
      if isWebhookQueueMissingError e then .error .missingQueueTable
      else .error (.plain e)
  | none => .ok ()

/-- enqueueWebhookDelivery error path (lines 1376, 1393-1404): the inner
throw escapes through the catch, which logs and rethrows. -/
def enqueueWebhookDeliveryResult (dbErr : Option DBError)
    (inserted : DeliveryRecord) : Except StoreError DeliveryRecord :=
  match raiseDistinguished dbErr with
  | .error e => .error e
  | .ok _ => .ok inserted

/-- getDueWebhookDeliveries error path (lines 1408, 1418-1428): the catch
swallows every throw, logs, and returns the empty list. -/
def getDueWebhookDeliveriesResult (dbErr : Option DBError)
    (due : List DeliveryRecord) : Except StoreError (List DeliveryRecord) :=
  match raiseDistinguished dbErr with
  | .error _ => .ok []
  | .ok _ => .ok due

/-- markWebhookDeliveryProcessing error path (lines 1432, 1445-1455): the
catch swallows every throw, logs, and returns null. -/
def markWebhookDeliveryProcessingResult (dbErr : Option DBError)
    (row : Option DeliveryRecord) :
    Except StoreError (Option DeliveryRecord) :=
  match raiseDistinguished dbErr with
  | .error _ => .ok none
  | .ok _ => .ok row

/-- completeWebhookDelivery error path (lines 1459, 1470-1480): the catch
swallows every throw, logs, and returns false. -/
def completeWebhookDeliveryResult (dbErr : Option DBError) :
    Except StoreError Bool :=
  match raiseDistinguished dbErr with
  | .error _ => .ok false
  | .ok _ => .ok true

/-- failWebhookDelivery error path (lines 1484, 1495-1505): the catch
swallows every throw, logs, and returns false. -/
def failWebhookDeliveryResult (dbErr : Option DBError) :
    Except StoreError Bool :=
  match raiseDistinguished dbErr with
  | .error _ => .ok false
  | .ok _ => .ok true

/-- resetStuckWebhookDeliveries error path (lines 1509, 1521-1530): the
catch logs and rethrows. -/
def resetStuckWebhookDeliveriesResult (dbErr : Option DBError) :
    Except StoreError Unit :=
  match raiseDistinguished dbErr with
  | .error e => .error e
  | .ok _ => .ok ()

/-- Counts by status as returned by getWebhookQueueStats. -/
structure QueueStats where
  pending : Nat
  processing : Nat
  failed : Nat
  dead_letter : Nat
deriving DecidableEq, Repr

/-- getWebhookQueueStats error path (lines 1533-1561): the per-status catch
rethrows MissingWebhookQueueTableError and otherwise records a zero count
and keeps going. -/
def getWebhookQueueStatsResult (dbErr : Option DBError)
    (counts : QueueStats) : Except StoreError QueueStats :=
  match raiseDistinguished dbErr with
  | .error .missingQueueTable => .error .missingQueueTable
  | .error (.plain _) => .ok ⟨0, 0, 0, 0⟩
  | .ok _ => .ok counts

/-! ## Delivery worker dispatch and retry policy

The gateway requires the worker / facade module `webhookDeliveryService`
(src/unnamed/part_005 line 51, src/unnamed/part_003 line 142) but that file
is not among the sources; the definitions in this section are modelled from
the spec, faithful to its words, and are marked so. -/

/-- Modelled from the spec: the Retry/Backoff Policy delay rule of section
4.3 (missing source file webhookDeliveryService.js) - exponential backoff
with a 30 s base doubling per attempt, delay in ms equal to
30000 * 2 ^ (attemptCount - 1), uncapped. -/
def backoffDelayMs (attemptCount : Nat) : Nat :=
  30000 * 2 ^ (attemptCount - 1)

/-- Modelled from the spec: the next-attempt timestamp the policy schedules
after a failed attempt, the failure time plus the backoff delay. -/
def nextAttemptTime (failTime : Int) (attemptCount : Nat) : Int :=
  failTime + (backoffDelayMs attemptCount : Int)

/-- Modelled from the spec: the decision record of the Retry/Backoff Policy
(section 4.3) - dead-letter exactly when attemptCount has reached maxRetries
after this attempt, otherwise reschedule at the computed delay. -/
structure PolicyDecision where
  retry : Bool
  nextAttemptAt : Int
  deadLetter : Bool
deriving DecidableEq, Repr

/-- Modelled from the spec: the pure decide function of section 4.3, taking
the post-claim attempt count of the record that just failed. -/
def retryDecide (now : Int) (attemptCount maxRetries : Nat) :
    PolicyDecision :=
  { retry := attemptCount < maxRetries
    nextAttemptAt := nextAttemptTime now attemptCount
    deadLetter := maxRetries ≤ attemptCount }

/-- Outcome of one HTTP delivery attempt as classified for the worker:
a received response status, or a network-level failure message. -/
inductive AttemptOutcome
  | ok (status : Nat)
  | failure (msg : String)
deriving DecidableEq, Repr

/-- Modelled from the spec: the Delivery Worker Loop per-record dispatch of
section 4.4 steps 2a-2d (missing source file webhookDeliveryService.js):
claim via the store CAS, skip silently when the claim is lost, complete on
success, otherwise consult the policy and fail with its decision. -/
def workerProcessRecord (now : Int) (job : DeliveryRecord)
    (outcome : AttemptOutcome) (s : Store) : Store :=
  match markWebhookDeliveryProcessing now job s with
  | (s1, none) => s1
  | (s1, some claimed) =>
    match outcome with
    | .ok status => completeWebhookDelivery now claimed.id status s1
    | .failure msg =>
      let d := retryDecide now claimed.attempt_count claimed.max_retries
      failWebhookDelivery now claimed.id msg d.nextAttemptAt d.deadLetter s1

/-- One worker cycle on the record with the given id, refetched fresh from
the store (as a tick of the loop does via getDueWebhookDeliveries), whose
delivery attempt fails with the given message. -/
def failCycleAt (rid : Nat) (now : Int) (msg : String) (s : Store) : Store :=
  match s.find? (fun r => r.id == rid) with
  | some job => workerProcessRecord now job (.failure msg) s
  | none => s

/-- Iterated failing worker cycles, one per listed (time, message) pair. -/
def failCycles (rid : Nat) : List (Int × String) → Store → Store
  | [], s => s
  | (t, m) :: rest, s => failCycles rid rest (failCycleAt rid t m s)

/-! ## Queue Facade and fallback dispatch -/

/-- A JavaScript try / catch block: run the body, hand any thrown value to
the handler. -/
def tryCatch {ε α : Type} (body : Except ε α) (handler : ε → Except ε α) :
    Except ε α :=
  match body with
  | .error e => handler e
  | .ok a => .ok a

/-- One iteration of the inline fallback loop of src/unnamed/part_003
(lines 156-170): await axios.post on the webhook url inside try / catch; a
thrown delivery error is logged by the catch and dropped. -/
def deliverInlineOne (post : Webhook → Except String Nat) (w : Webhook) :
    Except String Unit :=
  tryCatch (do let _ ← post w; pure ()) (fun _e => .ok ())

/-- The inline fallback queueDeliveries of src/unnamed/part_003
(lines 154-171): posts to every webhook in order, one attempt each; the
returned list records the url of every attempt made. -/
def inlineQueueDeliveries (post : Webhook → Except String Nat) :
    List Webhook → Except String (List String)
  | [] => .ok []
  | w :: rest => do
      let _ ← deliverInlineOne post w
      let urls ← inlineQueueDeliveries post rest
      pure (w.url :: urls)

/-- queueWebhookDeliveries of src/unnamed/part_005 (lines 631-642): fetch
the webhooks, filter the active ones, hand them to the delivery service if
any; the surrounding try / catch logs every thrown error and returns
normally. -/
def queueWebhookDeliveries (getWebhooks : Except String (List Webhook))
    (deliver : List Webhook → Except String Unit) : Except String Unit :=
  tryCatch
    (do
      let ws ← getWebhooks
      let active := ws.filter (fun w => w.is_active)
      if active.isEmpty then pure () else deliver active)
    (fun _e => .ok ())

/-- Trace of one facade call: the urls of the direct HTTP attempts made, and
how many DeliveryRecords were persisted. -/
structure FacadeTrace where
  httpPosts : List String
  recordsWritten : Nat
deriving DecidableEq, Repr

/-- Modelled from the spec: the degraded dispatch of section 4.5 (missing
source file webhookDeliveryService.js) - one immediate HTTP POST per
webhook, no retry, no persistence, failures logged and dropped; returns the
urls attempted. -/
def fallbackDispatch (post : Webhook → Except String Nat) :
    List Webhook → List String
  | [] => []
  | w :: rest =>
      match deliverInlineOne post w with
      | _ => w.url :: fallbackDispatch post rest

/-- Modelled from the spec: the durable enqueue loop of section 4.5 (missing
source file webhookDeliveryService.js) - one store.enqueue attempt per
webhook, errors caught at the facade boundary; counts the records written. -/
def durableEnqueueCount (enq : Webhook → Except StoreError DeliveryRecord) :
    List Webhook → Nat
  | [] => 0
  | w :: rest =>
      (match enq w with
       | .ok _ => 1
       | .error _ => 0) + durableEnqueueCount enq rest

/-- Modelled from the spec: queueDeliveries of the Queue Facade, section 4.5
(missing source file webhookDeliveryService.js) - on the very first enqueue
the facade determines whether the store signalled the distinguished queue
unavailable condition; if so it falls back to exactly one direct HTTP POST
per active webhook and persists nothing; otherwise every webhook is
enqueued; nothing is ever raised to the caller. -/
def facadeQueueDeliveries (enq : Webhook → Except StoreError DeliveryRecord)
    (post : Webhook → Except String Nat) :
    List Webhook → Except String Unit × FacadeTrace
  | [] => (.ok (), ⟨[], 0⟩)
  | w :: rest =>
    match enq w with
    | .error .missingQueueTable =>
        (.ok (), ⟨fallbackDispatch post (w :: rest), 0⟩)
    | _ => (.ok (), ⟨[], durableEnqueueCount enq (w :: rest)⟩)

/-! ## HTTP delivery attempt construction

The outbound webhook POST as built by the webhook test route handlers of
src/index.optimized.js (lines 298-326) and src/index.lite.js
(lines 494-544). -/

/-- The axios request as configured by the test route handler of
src/index.optimized.js lines 310-317. -/
structure TestWebhookRequest where
  method : String
  url : String
  contentType : String
  secretHeader : Option String
  timeoutMs : Nat
  throwOnErrorStatus : Bool
deriving DecidableEq, Repr

/-- JavaScript truthiness of the secret field: null, undefined and the empty
string are falsy. -/
def jsTruthy : Option String → Bool
  | none => false
  | some s => !(s == "")

/-- The request built by src/index.optimized.js lines 310-317: axios.post of
the webhook url with Content-Type application/json, the X-Webhook-Secret
header added exactly when webhook.secret is truthy, timeout 10000 ms, and
validateStatus accepting every status (so no throw on 4xx / 5xx). -/
def buildTestWebhookRequest (w : Webhook) : TestWebhookRequest :=
  { method := "POST"
    url := w.url
    contentType := "application/json"
    secretHeader := if jsTruthy w.secret then w.secret else none
    timeoutMs := 10000
    throwOnErrorStatus := false }

/-- The success classification of src/index.optimized.js line 320:
response.status at least 200 and below 300. -/
def testWebhookSuccess (status : Nat) : Bool :=
  200 ≤ status && status < 300

/-! ## Helper lemmas on guarded updates -/

theorem map_guard_id {p : DeliveryRecord → Bool}
    {f : DeliveryRecord → DeliveryRecord} {l : List DeliveryRecord}
    (h : ∀ x ∈ l, p x = false) :
    (l.map fun r => if p r then f r else r) = l := by
  induction l with
  | nil => rfl
  | cons a l ih =>
      have ha := h a (List.mem_cons_self a l)
      simp only [List.map_cons, ha, Bool.false_eq_true, if_false,
        List.cons.injEq, true_and]
      exact ih fun x hx => h x (List.mem_cons_of_mem a hx)

theorem filter_guard_nil {p : DeliveryRecord → Bool}
    {l : List DeliveryRecord} (h : ∀ x ∈ l, p x = false) :
    l.filter p = [] := by
  induction l with
  | nil => rfl
  | cons a l ih =>
      have ha := h a (List.mem_cons_self a l)
      simp only [List.filter_cons, ha, Bool.false_eq_true, if_false]
      exact ih fun x hx => h x (List.mem_cons_of_mem a hx)

theorem markMatches_false_of_ne_id {job x : DeliveryRecord}
    (h : x.id ≠ job.id) : markMatches job x = false := by
  simp [markMatches, h]

theorem markMatches_false_of_not_claimable {job x : DeliveryRecord}
    (h : x.status.claimable = false) : markMatches job x = false := by
  simp [markMatches, h]

/-- A store in which no row passes the CAS guard of the claim operation is
left unchanged by it and the claim returns null. -/
theorem mark_none_of_no_match (now : Int) (job : DeliveryRecord) (s : Store)
    (h : ∀ x ∈ s, markMatches job x = false) :
    markWebhookDeliveryProcessing now job s = (s, none) := by
  unfold markWebhookDeliveryProcessing
  rw [map_guard_id h, filter_guard_nil h]
  rfl

/-- C1 invariants: two racing claims of the same record snapshot. -/
theorem mark_race (now1 now2 : Int) (l1 l2 : List DeliveryRecord)
    (r : DeliveryRecord) (hc : r.status.claimable = true)
    (h1 : ∀ x ∈ l1, x.id ≠ r.id) (h2 : ∀ x ∈ l2, x.id ≠ r.id) :
    markWebhookDeliveryProcessing now1 r (l1 ++ r :: l2)
      = (l1 ++ markUpdate now1 r r :: l2, some (markUpdate now1 r r)) ∧
    markWebhookDeliveryProcessing now2 r (l1 ++ markUpdate now1 r r :: l2)
      = (l1 ++ markUpdate now1 r r :: l2, none) := by
  have hmr : markMatches r r = true := by
    simp [markMatches, hc]
  have hf1 : ∀ x ∈ l1, markMatches r x = false :=
    fun x hx => markMatches_false_of_ne_id (h1 x hx)
  have hf2 : ∀ x ∈ l2, markMatches r x = false :=
    fun x hx => markMatches_false_of_ne_id (h2 x hx)
  constructor
  · unfold markWebhookDeliveryProcessing
    rw [List.map_append, List.filter_append, map_guard_id hf1,
      filter_guard_nil hf1]
    simp only [List.map_cons, List.filter_cons, hmr, if_true,
      filter_guard_nil hf2, List.map_nil, List.nil_append]
    rw [map_guard_id hf2]
    rfl
  · apply mark_none_of_no_match
    intro x hx
    rcases List.mem_append.1 hx with hx1 | hx2
    · exact markMatches_false_of_ne_id (h1 x hx1)
    · rcases List.mem_cons.1 hx2 with rfl | hx2
      · exact markMatches_false_of_not_claimable rfl
      · exact markMatches_false_of_ne_id (h2 x hx2)

theorem claimable_iff {st : Status} :
    st.claimable = true ↔ st = .pending ∨ st = .failed := by
  cases st <;> simp [Status.claimable]

theorem claimable_eq_false {st : Status}
    (h : ¬(st = .pending ∨ st = .failed)) : st.claimable = false := by
  cases st <;> simp_all [Status.claimable]

/-! ## Demo values used by the witnesses -/

def demoWebhook : Webhook :=
  { id := 7
    url := "https://example.com/hook"
    secret := some "s3cret"
    is_active := true
    headers := [] }

def demoPending : DeliveryRecord :=
  { id := 1
    account_id := 2
    webhook_id := 7
    webhook_url := "https://example.com/hook"
    webhook_secret := some "s3cret"
    payload := "payload"
    status := .pending
    attempt_count := 0
    max_retries := 3
    last_error := none
    response_status := none
    next_attempt_at := 0
    created_at := 0
    updated_at := 0 }

/-- C1: for every delivery record, when two claim operations race on it,
exactly one receives the updated record and the other receives null; the
flip to processing happens only while the status is still pending or failed
at write time, and across the racing pair the attempt count increases by
exactly one, not two. -/
theorem claim_cas_exactly_one_winner
    (now1 now2 : Int) (l1 l2 : List DeliveryRecord) (r : DeliveryRecord)
    (hc : r.status = .pending ∨ r.status = .failed)
    (h1 : ∀ x ∈ l1, x.id ≠ r.id) (h2 : ∀ x ∈ l2, x.id ≠ r.id) :
    (markWebhookDeliveryProcessing now1 r (l1 ++ r :: l2)).2
        = some (markUpdate now1 r r) ∧
    (markWebhookDeliveryProcessing now2 r
        (markWebhookDeliveryProcessing now1 r (l1 ++ r :: l2)).1).2 = none ∧
    (∀ x ∈ (markWebhookDeliveryProcessing now2 r
          (markWebhookDeliveryProcessing now1 r (l1 ++ r :: l2)).1).1,
        x.id = r.id →
          x.status = .processing ∧ x.attempt_count = r.attempt_count + 1) ∧
    (∀ now (job : DeliveryRecord) (s : Store),
        (∀ x ∈ s, x.id = job.id → ¬(x.status = .pending ∨ x.status = .failed)) →
        markWebhookDeliveryProcessing now job s = (s, none)) := by
  have hcb : r.status.claimable = true := claimable_iff.2 hc
  obtain ⟨e1, e2⟩ := mark_race now1 now2 l1 l2 r hcb h1 h2
  refine ⟨by rw [e1], by rw [e1, e2], ?_, ?_⟩
  · rw [e1, e2]
    intro x hx hid
    rcases List.mem_append.1 hx with hx1 | hx2
    · exact absurd hid (h1 x hx1)
    · rcases List.mem_cons.1 hx2 with rfl | hx2
      · exact ⟨rfl, rfl⟩
      · exact absurd hid (h2 x hx2)
  · intro now job s hs
    apply mark_none_of_no_match
    intro x hx
    by_cases hid : x.id = job.id
    · exact markMatches_false_of_not_claimable
        (claimable_eq_false (hs x hx hid))
    · exact markMatches_false_of_ne_id hid

/-- C1 witness: the race evaluated on a concrete pending record. -/
theorem claim_cas_exactly_one_winner_witness :
    (markWebhookDeliveryProcessing 10 demoPending [demoPending]).2
        = some (markUpdate 10 demoPending demoPending) ∧
    (markWebhookDeliveryProcessing 20 demoPending
        (markWebhookDeliveryProcessing 10 demoPending [demoPending]).1).2
        = none := by
  have h := claim_cas_exactly_one_winner 10 20 [] [] demoPending
    (Or.inl rfl)
    (fun x hx => absurd hx (List.not_mem_nil x))
    (fun x hx => absurd hx (List.not_mem_nil x))
  exact ⟨h.1, h.2.1⟩

def demoSuccess : DeliveryRecord :=
  { demoPending with id := 3, status := .success }

theorem dueFilter_spec {now : Int} {r : DeliveryRecord}
    (h : dueFilter now r = true) :
    (r.status = .pending ∨ r.status = .failed) ∧ r.next_attempt_at ≤ now := by
  have := Bool.and_eq_true_iff.1 h
  exact ⟨claimable_iff.1 this.1, of_decide_eq_true this.2⟩

/-- C4: for every limit and store state, dueRecords returns only records
whose status is pending or failed and whose next attempt time is at most
now, ordered oldest-due-first by next_attempt_at, and returns at most limit
records; a record in status success, processing or dead_letter is never
returned. -/
theorem due_records_sound (now : Int) (limit : Nat) (s : Store) :
    (getDueWebhookDeliveries now limit s).length ≤ limit ∧
    (∀ r ∈ getDueWebhookDeliveries now limit s,
        r ∈ s ∧ (r.status = .pending ∨ r.status = .failed) ∧
        r.next_attempt_at ≤ now) ∧
    List.Sorted dueLE (getDueWebhookDeliveries now limit s) ∧
    (∀ r ∈ s,
        r.status = .success ∨ r.status = .processing ∨
          r.status = .dead_letter →
        r ∉ getDueWebhookDeliveries now limit s) := by
  have hmem : ∀ r ∈ getDueWebhookDeliveries now limit s,
      r ∈ s ∧ dueFilter now r = true := by
    intro r hr
    have h1 : r ∈ List.insertionSort dueLE (s.filter (dueFilter now)) :=
      List.take_subset limit _ hr
    have h2 : r ∈ s.filter (dueFilter now) :=
      (List.mem_insertionSort dueLE).1 h1
    exact List.mem_filter.1 h2
  refine ⟨?_, ?_, ?_, ?_⟩
  · calc (getDueWebhookDeliveries now limit s).length
        = min limit (List.insertionSort dueLE
            (s.filter (dueFilter now))).length := List.length_take _ _
      _ ≤ limit := min_le_left _ _
  · intro r hr
    obtain ⟨hs, hf⟩ := hmem r hr
    exact ⟨hs, dueFilter_spec hf⟩
  · exact (List.sorted_insertionSort dueLE
      (s.filter (dueFilter now))).sublist (List.take_sublist _ _)
  · intro r _ hst hr
    obtain ⟨_, hf⟩ := hmem r hr
    have hpf := (dueFilter_spec hf).1
    rcases hst with h | h | h <;> rcases hpf with h' | h' <;>
      rw [h] at h' <;> exact Status.noConfusion h'

/-- C4 witness: dueRecords on a concrete store with a success record and a
due pending record. -/
theorem due_records_sound_witness :
    (getDueWebhookDeliveries 100 5 [demoSuccess, demoPending]).length ≤ 5 ∧
    demoSuccess ∉ getDueWebhookDeliveries 100 5 [demoSuccess, demoPending] := by
  have h := due_records_sound 100 5 [demoSuccess, demoPending]
  exact ⟨h.1, h.2.2.2 demoSuccess (List.mem_cons_self _ _) (Or.inl rfl)⟩

/-- The row written by the recovery sweep for a stuck record. -/
def stuckReset (now : Int) (r : DeliveryRecord) : DeliveryRecord :=
  { r with
      status := .failed
      next_attempt_at := now
      last_error := some "Recovered from unexpected shutdown"
      updated_at := now }

theorem resetStuck_length (now : Int) (minutes : Nat) (s : Store) :
    (resetStuckWebhookDeliveries now minutes s).length = s.length :=
  List.length_map s _

/-- C3: the recovery sweep moves exactly the records with status processing
whose updated_at is at or past the age threshold to status failed with
next_attempt_at set to now (so they are claimable and due again); every
other record, and every younger processing record, is left untouched. -/
theorem reset_stuck_exact (now : Int) (minutes : Nat) (s : Store) (i : Nat)
    (h : i < s.length)
    (h2 : i < (resetStuckWebhookDeliveries now minutes s).length) :
    ((s.get ⟨i, h⟩).status = .processing →
      (s.get ⟨i, h⟩).updated_at ≤ stuckCutoff now minutes →
      (resetStuckWebhookDeliveries now minutes s).get ⟨i, h2⟩
          = stuckReset now (s.get ⟨i, h⟩) ∧
      ((resetStuckWebhookDeliveries now minutes s).get ⟨i, h2⟩).status
          = .failed ∧
      ((resetStuckWebhookDeliveries now minutes s).get
          ⟨i, h2⟩).status.claimable = true ∧
      ((resetStuckWebhookDeliveries now minutes s).get
          ⟨i, h2⟩).next_attempt_at ≤ now) ∧
    (¬((s.get ⟨i, h⟩).status = .processing ∧
        (s.get ⟨i, h⟩).updated_at ≤ stuckCutoff now minutes) →
      (resetStuckWebhookDeliveries now minutes s).get ⟨i, h2⟩
          = s.get ⟨i, h⟩) := by
  have hget : (resetStuckWebhookDeliveries now minutes s).get ⟨i, h2⟩
      = if stuckMatches now minutes (s.get ⟨i, h⟩)
        then stuckReset now (s.get ⟨i, h⟩) else s.get ⟨i, h⟩ := by
    simp [resetStuckWebhookDeliveries, stuckReset, List.get_eq_getElem,
      List.getElem_map]
  constructor
  · intro hp hu
    simp only [List.get_eq_getElem] at hp hu hget ⊢
    have hm : stuckMatches now minutes s[i] = true := by
      simp [stuckMatches, hp, hu]
    rw [hget, if_pos hm]
    exact ⟨rfl, rfl, rfl, le_refl now⟩
  · intro hn
    simp only [List.get_eq_getElem] at hn hget ⊢
    have hm : stuckMatches now minutes s[i] = false := by
      rcases not_and_or.1 hn with hp | hu
      · simp [stuckMatches, hp]
      · simp [stuckMatches, hu]
    rw [hget, if_neg (by simp [hm])]

/-- C3 witness: a stuck processing record ten minutes old is reset by a
five-minute sweep; a younger one is untouched. -/
theorem reset_stuck_exact_witness :
    (resetStuckWebhookDeliveries 600000 5
        [{ demoPending with status := .processing, updated_at := 0 }]).get
        ⟨0, by decide⟩
      = stuckReset 600000
          { demoPending with status := .processing, updated_at := 0 } ∧
    (resetStuckWebhookDeliveries 600000 5
        [{ demoPending with status := .processing, updated_at := 500000 }]).get
        ⟨0, by decide⟩
      = { demoPending with status := .processing, updated_at := 500000 } := by
  have ha := reset_stuck_exact 600000 5
    [{ demoPending with status := .processing, updated_at := 0 }] 0
    (by decide) (by decide)
  have hb := reset_stuck_exact 600000 5
    [{ demoPending with status := .processing, updated_at := 500000 }] 0
    (by decide) (by decide)
  exact ⟨(ha.1 rfl (by decide)).1, hb.2 (by decide)⟩

/-! ## Worker fail-cycle lemmas -/

theorem mark_single_claimable (now : Int) (r : DeliveryRecord)
    (hc : r.status.claimable = true) :
    markWebhookDeliveryProcessing now r [r]
      = ([markUpdate now r r], some (markUpdate now r r)) :=
  (mark_race now now [] [] r hc
    (fun x hx => absurd hx (List.not_mem_nil x))
    (fun x hx => absurd hx (List.not_mem_nil x))).1

/-- The row left behind by one failing worker cycle on a claimable record:
the claim increments the attempt count, then the failed attempt records the
error, the policy delay and, when the ceiling is reached, dead_letter. -/
def failedNext (t : Int) (m : String) (r : DeliveryRecord) :
    DeliveryRecord :=
  { r with
      status := if r.max_retries ≤ r.attempt_count + 1
                then Status.dead_letter else Status.failed
      attempt_count := r.attempt_count + 1
      last_error := some m
      next_attempt_at := nextAttemptTime t (r.attempt_count + 1)
      updated_at := t }

theorem failCycleAt_single (t : Int) (m : String) (r : DeliveryRecord)
    (hc : r.status.claimable = true) :
    failCycleAt r.id t m [r] = [failedNext t m r] := by
  unfold failCycleAt
  simp only [List.find?_singleton, beq_self_eq_true, if_true]
  unfold workerProcessRecord
  rw [mark_single_claimable t r hc]
  simp [failWebhookDelivery, retryDecide, markUpdate, failedNext,
    nextAttemptTime]

theorem failCycleAt_single_nonclaimable (t : Int) (m : String)
    (r : DeliveryRecord) (hc : r.status.claimable = false) :
    failCycleAt r.id t m [r] = [r] := by
  unfold failCycleAt
  simp only [List.find?_singleton, beq_self_eq_true, if_true]
  unfold workerProcessRecord
  rw [mark_none_of_no_match t r [r]
    (fun x hx => by
      rcases List.mem_singleton.1 hx with rfl
      exact markMatches_false_of_not_claimable hc)]

theorem failCycles_run (ts : List (Int × String)) :
    ∀ r : DeliveryRecord, r.status.claimable = true →
    r.attempt_count + ts.length = r.max_retries → ts ≠ [] →
    ∃ r2, failCycles r.id ts [r] = [r2] ∧ r2.id = r.id ∧
      r2.status = .dead_letter ∧ r2.attempt_count = r.max_retries ∧
      r2.max_retries = r.max_retries := by
  induction ts with
  | nil => intro r _ _ hne; exact absurd rfl hne
  | cons tm rest ih =>
    intro r hc hcount _
    obtain ⟨t, m⟩ := tm
    have hstep : failCycles r.id ((t, m) :: rest) [r]
        = failCycles r.id rest [failedNext t m r] := by
      simp only [failCycles]
      rw [failCycleAt_single t m r hc]
    cases rest with
    | nil =>
        have hd : r.max_retries ≤ r.attempt_count + 1 := by
          simp only [List.length_cons, List.length_nil] at hcount
          omega
        refine ⟨failedNext t m r, ?_, rfl, ?_, ?_, rfl⟩
        · rw [hstep]; rfl
        · simp [failedNext, if_pos hd]
        · simp only [failedNext]
          simp only [List.length_cons, List.length_nil] at hcount
          omega
    | cons tm2 rest2 =>
        have hlen : r.attempt_count + (rest2.length + 2) = r.max_retries := by
          simpa using hcount
        have hnd : ¬(r.max_retries ≤ r.attempt_count + 1) := by omega
        have hc2 : (failedNext t m r).status.claimable = true := by
          simp [failedNext, if_neg hnd, Status.claimable]
        have hcount2 : (failedNext t m r).attempt_count
            + (tm2 :: rest2).length = (failedNext t m r).max_retries := by
          simp only [failedNext, List.length_cons]
          omega
        obtain ⟨r2, h1, h2, h3, h4, h5⟩ :=
          ih (failedNext t m r) hc2 hcount2 (by simp)
        exact ⟨r2, by rw [hstep]; exact h1, h2, h3, by
          simpa [failedNext] using h4, by simpa [failedNext] using h5⟩

theorem mark_single_match (now : Int) (job x : DeliveryRecord)
    (hm : markMatches job x = true) :
    markWebhookDeliveryProcessing now job [x]
      = ([markUpdate now job x], some (markUpdate now job x)) := by
  simp [markWebhookDeliveryProcessing, hm]

/-- C2: a record whose attempts all fail reaches dead_letter after exactly
maxRetries failing cycles, with attempt count equal to maxRetries, and is
then never due, never claimable and untouched by further cycles; moreover a
worker step puts a record into dead_letter only on a failed attempt whose
post-claim attempt count has reached maxRetries, from a pending or failed
record, never from success. -/
theorem retry_ceiling_dead_letter (r : DeliveryRecord)
    (ts : List (Int × String)) (hst : r.status = .pending)
    (hac : r.attempt_count = 0) (hlen : ts.length = r.max_retries)
    (hM : 1 ≤ r.max_retries) :
    (∃ r2, failCycles r.id ts [r] = [r2] ∧ r2.status = .dead_letter ∧
      r2.attempt_count = r.max_retries ∧
      (∀ now limit, getDueWebhookDeliveries now limit [r2] = []) ∧
      (∀ now job,
        markWebhookDeliveryProcessing now job [r2] = ([r2], none)) ∧
      (∀ t m, failCycleAt r2.id t m [r2] = [r2])) ∧
    (∀ now (job x y : DeliveryRecord) (outcome : AttemptOutcome),
      y ∈ workerProcessRecord now job outcome [x] →
      y.status = .dead_letter → x.status ≠ .dead_letter →
      (∃ msg, outcome = .failure msg) ∧
      (x.status = .pending ∨ x.status = .failed) ∧
      x.status ≠ .success ∧
      x.max_retries ≤ job.attempt_count + 1) := by
  constructor
  · have hc : r.status.claimable = true := by rw [hst]; rfl
    have hcount : r.attempt_count + ts.length = r.max_retries := by omega
    have hne : ts ≠ [] := by
      intro h0
      rw [h0] at hlen
      simp at hlen
      omega
    obtain ⟨r2, h1, _, h3, h4, h5⟩ := failCycles_run ts r hc hcount hne
    have hncl : r2.status.claimable = false := by rw [h3]; rfl
    refine ⟨r2, h1, h3, h4, ?_, ?_, ?_⟩
    · intro now limit
      have hdf : dueFilter now r2 = false := by
        simp [dueFilter, hncl]
      simp [getDueWebhookDeliveries, List.filter_cons, hdf,
        List.insertionSort]
    · intro now job
      exact mark_none_of_no_match now job [r2] fun x hx => by
        rcases List.mem_singleton.1 hx with rfl
        exact markMatches_false_of_not_claimable hncl
    · intro t m
      exact failCycleAt_single_nonclaimable t m r2 hncl
  · intro now job x y outcome hy hydead hxnot
    by_cases hm : markMatches job x = true
    · have hcx : x.status.claimable = true := (Bool.and_eq_true_iff.1 hm).2
      have hpf := claimable_iff.1 hcx
      have hxs : x.status ≠ .success := by
        rcases hpf with h | h <;> rw [h] <;> intro h0 <;>
          exact Status.noConfusion h0
      unfold workerProcessRecord at hy
      rw [mark_single_match now job x hm] at hy
      cases outcome with
      | ok code =>
          exfalso
          simp only [completeWebhookDelivery, List.map_cons, List.map_nil,
            beq_self_eq_true, if_true, List.mem_singleton] at hy
          rw [hy] at hydead
          exact Status.noConfusion hydead
      | failure msg =>
          refine ⟨⟨msg, rfl⟩, hpf, hxs, ?_⟩
          simp only [failWebhookDelivery, List.map_cons, List.map_nil,
            beq_self_eq_true, if_true, List.mem_singleton] at hy
          rw [hy] at hydead
          simp only [retryDecide, markUpdate] at hydead
          by_cases hd : x.max_retries ≤ job.attempt_count + 1
          · exact hd
          · exfalso
            rw [if_neg (by simpa using hd)] at hydead
            exact Status.noConfusion hydead
    · exfalso
      have hnone := mark_none_of_no_match now job [x] fun z hz => by
        rcases List.mem_singleton.1 hz with rfl
        exact Bool.not_eq_true _ ▸ (Bool.eq_false_iff.2 hm)
      unfold workerProcessRecord at hy
      rw [hnone] at hy
      rcases List.mem_singleton.1 hy with rfl
      exact hxnot hydead

/-- C2 witness: three failing cycles on a concrete record with three
allowed retries end in dead_letter with attempt count three. -/
theorem retry_ceiling_dead_letter_witness :
    (failCycles demoPending.id [(100, "e1"), (200, "e2"), (300, "e3")]
        [demoPending]).map (fun r => (r.status, r.attempt_count))
      = [(Status.dead_letter, 3)] := by
  have h := retry_ceiling_dead_letter demoPending
    [(100, "e1"), (200, "e2"), (300, "e3")] rfl rfl (by decide) (by decide)
  obtain ⟨⟨r2, h1, h2, h3, _⟩, _⟩ := h
  rw [h1]
  simp [h2, h3]
  rfl

/-! ## The stale-snapshot claim run (C6) -/

/-- Store after a first fresh claim of the demo record at time 10. -/
def staleRunS1 : Store :=
  (markWebhookDeliveryProcessing 10 demoPending [demoPending]).1

/-- Store after that attempt fails at time 20 (still below the ceiling). -/
def staleRunS2 : Store :=
  failWebhookDelivery 20 1 "boom" 30020 false staleRunS1

/-- Fresh snapshot of the record as a second worker tick would fetch it. -/
def staleRunJob2 : DeliveryRecord := staleRunS2.get ⟨0, by decide⟩

/-- Store after a second fresh claim at time 40. -/
def staleRunS3 : Store :=
  (markWebhookDeliveryProcessing 40 staleRunJob2 staleRunS2).1

/-- Store after the second attempt fails at time 50: the record now has
attempt count two and status failed. -/
def staleRunS4 : Store :=
  failWebhookDelivery 50 1 "boom" 60050 false staleRunS3

/-- A claim issued from the original stale snapshot (attempt count zero)
against the store in which the record already has attempt count two. -/
def staleRunS5 : Store :=
  (markWebhookDeliveryProcessing 60 demoPending staleRunS4).1

/-- C6 evidence: the claim guard only checks status, while the attempt
count is written from the caller snapshot plus one, so a claim issued from
a stale snapshot is accepted (the record is failed, hence claimable) and
writes attempt count one over the current value two: attemptCount
decreases. -/
theorem attempt_count_decreases_on_stale_claim :
    staleRunS4.map (fun r => r.attempt_count) = [2] ∧
    (markWebhookDeliveryProcessing 60 demoPending staleRunS4).2.isSome
      = true ∧
    staleRunS5.map (fun r => r.attempt_count) = [1] := by
  refine ⟨?_, ?_, ?_⟩ <;> rfl

/-! ## C5: behaviour of every store operation on a missing table -/

/-- The Supabase error produced when the queue table is absent:
code PGRST205 with a message naming webhook_delivery_queue. -/
def missingTableError : DBError :=
  { codePGRST205 := true, mentionsQueueTable := true }

/-- C5 counterexample: with the backing table missing, dueRecords returns a
normal-looking empty list, claim returns null, complete and fail return
false - none of these four raises the distinguished signal, refuting the
claim that every store operation does. -/
theorem not_every_op_raises_on_missing_table :
    getDueWebhookDeliveriesResult (some missingTableError) [demoPending]
      = .ok [] ∧
    markWebhookDeliveryProcessingResult (some missingTableError)
      (some demoPending) = .ok none ∧
    completeWebhookDeliveryResult (some missingTableError) = .ok false ∧
    failWebhookDeliveryResult (some missingTableError) = .ok false := by
  refine ⟨?_, ?_, ?_, ?_⟩ <;> rfl

/-- C5 amended: when the backing table is missing, enqueue, resetStuck and
queueStats raise the distinguished MissingWebhookQueueTableError, while
dueRecords, claim, complete and fail swallow it after logging and return
the empty list, null, false and false respectively. -/
theorem missing_table_signal_per_operation (e : DBError)
    (he : isWebhookQueueMissingError e = true) (rec : DeliveryRecord)
    (due : List DeliveryRecord) (row : Option DeliveryRecord)
    (counts : QueueStats) :
    enqueueWebhookDeliveryResult (some e) rec
        = .error .missingQueueTable ∧
    resetStuckWebhookDeliveriesResult (some e)
        = .error .missingQueueTable ∧
    getWebhookQueueStatsResult (some e) counts
        = .error .missingQueueTable ∧
    getDueWebhookDeliveriesResult (some e) due = .ok [] ∧
    markWebhookDeliveryProcessingResult (some e) row = .ok none ∧
    completeWebhookDeliveryResult (some e) = .ok false ∧
    failWebhookDeliveryResult (some e) = .ok false := by
  have hr : raiseDistinguished (some e)
      = .error StoreError.missingQueueTable := by
    simp [raiseDistinguished, he]
  refine ⟨?_, ?_, ?_, ?_, ?_, ?_, ?_⟩ <;>
    simp [enqueueWebhookDeliveryResult, resetStuckWebhookDeliveriesResult,
      getWebhookQueueStatsResult, getDueWebhookDeliveriesResult,
      markWebhookDeliveryProcessingResult, completeWebhookDeliveryResult,
      failWebhookDeliveryResult, hr]

/-- C5 witness: the amended behaviour evaluated on the concrete
missing-table error. -/
theorem missing_table_signal_per_operation_witness :
    enqueueWebhookDeliveryResult (some missingTableError) demoPending
        = .error .missingQueueTable ∧
    resetStuckWebhookDeliveriesResult (some missingTableError)
        = .error .missingQueueTable ∧
    getWebhookQueueStatsResult (some missingTableError) ⟨1, 2, 3, 4⟩
        = .error .missingQueueTable := by
  have h := missing_table_signal_per_operation missingTableError rfl
    demoPending [] none ⟨1, 2, 3, 4⟩
  exact ⟨h.1, h.2.1, h.2.2.1⟩

/-! ## C7 and C8: facade behaviour -/

theorem tryCatch_ok_unit (body : Except String Unit) :
    tryCatch body (fun _e => .ok ()) = .ok () := by
  cases body with
  | error e => rfl
  | ok a => cases a; rfl

theorem deliverInlineOne_ok (post : Webhook → Except String Nat)
    (w : Webhook) : deliverInlineOne post w = .ok () := by
  unfold deliverInlineOne
  exact tryCatch_ok_unit _

/-- C7: queueDeliveries never raises to its caller, whatever the store and
the HTTP client do, and a delivery failure for one webhook does not prevent
the attempt for each remaining webhook: the wrapper returns normally for
every behaviour of its collaborators, and the inline fallback posts to
every webhook in the list exactly once. -/
theorem queue_deliveries_never_raises :
    (∀ (getWebhooks : Except String (List Webhook))
        (deliver : List Webhook → Except String Unit),
      queueWebhookDeliveries getWebhooks deliver = .ok ()) ∧
    (∀ (post : Webhook → Except String Nat) (ws : List Webhook),
      inlineQueueDeliveries post ws = .ok (ws.map fun w => w.url)) := by
  constructor
  · intro getWebhooks deliver
    unfold queueWebhookDeliveries
    exact tryCatch_ok_unit _
  · intro post ws
    induction ws with
    | nil => rfl
    | cons w rest ih =>
        simp only [inlineQueueDeliveries, deliverInlineOne_ok, ih,
          List.map_cons]
        rfl

theorem fallbackDispatch_eq_map (post : Webhook → Except String Nat)
    (ws : List Webhook) : fallbackDispatch post ws = ws.map fun w => w.url := by
  induction ws with
  | nil => rfl
  | cons w rest ih => simp only [fallbackDispatch, ih, List.map_cons]

/-- C8: when the store enqueue signals the distinguished queue unavailable
condition, queueDeliveries performs exactly one direct HTTP POST per active
webhook, never raises, and writes no DeliveryRecord. -/
theorem fallback_isolation (enq : Webhook → Except StoreError DeliveryRecord)
    (post : Webhook → Except String Nat) (w0 : Webhook)
    (rest : List Webhook) (h : enq w0 = .error .missingQueueTable) :
    facadeQueueDeliveries enq post (w0 :: rest)
      = (.ok (), ⟨(w0 :: rest).map fun w => w.url, 0⟩) := by
  simp only [facadeQueueDeliveries, h, fallbackDispatch_eq_map]

/-- A store enqueue that always signals the missing queue table. -/
def demoEnqUnavailable : Webhook → Except StoreError DeliveryRecord :=
  fun _w => .error .missingQueueTable

/-- An HTTP client that always receives a 200 response. -/
def demoPostOk : Webhook → Except String Nat :=
  fun _w => .ok 200

def demoWebhookB : Webhook :=
  { id := 9
    url := "https://example.org/b"
    secret := none
    is_active := true
    headers := [] }

/-- C8 witness: the fallback evaluated with two concrete webhooks makes
exactly the two direct posts and writes nothing. -/
theorem fallback_isolation_witness :
    facadeQueueDeliveries demoEnqUnavailable demoPostOk
        [demoWebhook, demoWebhookB]
      = (.ok (), ⟨["https://example.com/hook", "https://example.org/b"], 0⟩) :=
  fallback_isolation demoEnqUnavailable demoPostOk demoWebhook
    [demoWebhookB] rfl

/-! ## C9: the outbound HTTP attempt -/

def demoWebhookNoSecret : Webhook :=
  { demoWebhook with id := 8, secret := none }

/-- C9: every outbound webhook delivery attempt is a POST with Content-Type
application/json, carries the X-Webhook-Secret header exactly when the
webhook has a configured secret, uses a 10 second timeout, accepts every
HTTP status as a received response, and counts as success exactly for a
2xx status. -/
theorem http_attempt_contract :
    (∀ w : Webhook,
      (buildTestWebhookRequest w).method = "POST" ∧
      (buildTestWebhookRequest w).contentType = "application/json" ∧
      (buildTestWebhookRequest w).timeoutMs = 10000 ∧
      (buildTestWebhookRequest w).throwOnErrorStatus = false ∧
      (jsTruthy w.secret = true →
        (buildTestWebhookRequest w).secretHeader = w.secret) ∧
      (jsTruthy w.secret = false →
        (buildTestWebhookRequest w).secretHeader = none)) ∧
    (∀ status : Nat,
      testWebhookSuccess status = true ↔ 200 ≤ status ∧ status < 300) := by
  constructor
  · intro w
    refine ⟨rfl, rfl, rfl, rfl, ?_, ?_⟩
    · intro h; simp [buildTestWebhookRequest, h]
    · intro h; simp [buildTestWebhookRequest, h]
  · intro status
    simp [testWebhookSuccess]

/-- C9 witness: the contract evaluated on a webhook with a secret, one
without, a 204 response and a 404 response. -/
theorem http_attempt_contract_witness :
    (buildTestWebhookRequest demoWebhook).secretHeader = some "s3cret" ∧
    (buildTestWebhookRequest demoWebhookNoSecret).secretHeader = none ∧
    testWebhookSuccess 204 = true ∧
    testWebhookSuccess 404 = false := by
  have h := http_attempt_contract
  refine ⟨(h.1 demoWebhook).2.2.2.2.1 rfl,
    (h.1 demoWebhookNoSecret).2.2.2.2.2 rfl,
    (h.2 204).2 ⟨by decide, by decide⟩, ?_⟩
  have h404 := h.2 404
  rcases hb : testWebhookSuccess 404 with _ | _
  · rfl
  · exact absurd (h404.1 hb).2 (by decide)

/-! ## C10: the backoff schedule -/

/-- C10: the retry delay is 30000 ms times two to the power of attempt
count minus one, so it doubles per attempt following 30 s, 60 s, 120 s, and
for consecutive failures of one record each computed next attempt time is
strictly later than the previous one. -/
theorem backoff_schedule :
    (∀ a : Nat, 1 ≤ a → backoffDelayMs (a + 1) = 2 * backoffDelayMs a) ∧
    backoffDelayMs 1 = 30000 ∧
    backoffDelayMs 2 = 60000 ∧
    backoffDelayMs 3 = 120000 ∧
    (∀ (t1 t2 : Int) (a : Nat), nextAttemptTime t1 a ≤ t2 →
      nextAttemptTime t1 a < nextAttemptTime t2 (a + 1)) := by
  refine ⟨?_, by decide, by decide, by decide, ?_⟩
  · intro a ha
    unfold backoffDelayMs
    have h1 : a + 1 - 1 = (a - 1) + 1 := by omega
    rw [h1, pow_succ]
    ring
  · intro t1 t2 a h
    unfold nextAttemptTime at h ⊢
    have hpos : 0 < backoffDelayMs (a + 1) := by
      unfold backoffDelayMs
      positivity
    have hposZ : (0 : Int) < (backoffDelayMs (a + 1) : Int) := by
      exact_mod_cast hpos
    linarith

/-- C10 witness: the schedule evaluated at the first two attempts. -/
theorem backoff_schedule_witness :
    backoffDelayMs 2 = 2 * backoffDelayMs 1 ∧
    nextAttemptTime 0 1 < nextAttemptTime 30000 2 := by
  have h := backoff_schedule
  exact ⟨h.1 1 (le_refl 1), h.2.2.2.2 0 30000 1 (by decide)⟩

end WebhookQueue










